import Mathlib

/-!
Verification of the disk-image codec of js99er-angular
(src/app/emulator/classes/diskimage.ts) against its specification.

The development shallowly embeds the TypeScript source:

* JS byte buffers (Uint8Array and plain arrays of byte values) are List Nat;
  stores coerce the value with % 256 (ToUint8), out-of-range reads yield 0
  (undefined coerced to 0 on store into a typed array), out-of-range writes
  are discarded, matching JS typed-array semantics.
* JS numbers holding integer values are Nat, or Int where the source can
  drive them negative.
* JS strings are List Nat of UTF-16 code units (all strings handled by this
  code are built from byte values with String.fromCharCode).
-/

set_option maxHeartbeats 4000000
set_option maxRecDepth 4096

/-- Read of a JS Uint8Array or byte array at a Nat index: out-of-range reads
give undefined, which every consumer in this code treats as 0. -/
def getB (buf : List Nat) (i : Nat) : Nat := buf.getD i 0

/-- Read at a possibly-negative index (JS numbers): negative or out-of-range
indices read as 0. -/
def getI (buf : List Nat) (i : Int) : Nat := if 0 ≤ i then buf.getD i.toNat 0 else 0

/-- Store into a Uint8Array: the value is coerced mod 256 (ToUint8); a store
outside the buffer, negative indices included, is silently discarded. -/
def setB (buf : List Nat) (i : Int) (v : Nat) : List Nat :=
  if 0 ≤ i then buf.set i.toNat (v % 256) else buf

/-- `buf[i] |= (1 <<< bit)` on a Uint8Array, with out-of-range stores
discarded (line 651 and 655 of diskimage.ts). -/
def orBit (buf : List Nat) (i : Int) (bit : Nat) : List Nat :=
  setB buf i (getI buf i ||| (1 <<< bit))

/-- `readBytes buf start len` reads `len` consecutive bytes starting at
`start` (the common sequential-read loop shape of the source). -/
def readBytes (buf : List Nat) (start len : Nat) : List Nat :=
  (List.range len).map (fun i => getB buf (start + i))

/-- JS ToUint32, used to give JS bitwise operators a meaning on Int values. -/
def toUint32 (a : Int) : Nat := ((a % 4294967296 + 4294967296) % 4294967296).toNat

/-- `a & m` as JS evaluates it when `a` may be an Int (both operands pass
through ToInt32; for masks below 2^31 the result equals the ToUint32 view). -/
def jsAnd (a : Int) (m : Nat) : Nat := toUint32 a &&& m

/-- JS whitespace recognized by String.prototype.trim, restricted to the code
units this program can produce (all below 256). -/
def isJsWs (c : Nat) : Bool :=
  c == 9 || c == 10 || c == 11 || c == 12 || c == 13 || c == 32 || c == 160

/-- String.prototype.trim on a code-unit list. -/
def jsTrim (s : List Nat) : List Nat :=
  ((s.dropWhile isJsWs).reverse.dropWhile isJsWs).reverse

/-- String.prototype.toUpperCase restricted to ASCII (the only strings this
program compares case-insensitively are built from ASCII bytes). -/
def jsToUpper (s : List Nat) : List Nat :=
  s.map (fun c => if 97 ≤ c ∧ c ≤ 122 then c - 32 else c)

/-- The character filter `c >= 32 && c < 128` applied to embedded file and
volume names (lines 119, 147, 385, 407 of diskimage.ts). -/
def filteredAscii (s : List Nat) : List Nat :=
  s.filter (fun c => 32 ≤ c && c < 128)

/-- The filesystem-charset test, the regex `[0-9A-Za-z_\x2d]` of lines 129
and 167. -/
def isFsChar (c : Nat) : Bool :=
  (48 ≤ c && c ≤ 57) || (65 ≤ c && c ≤ 90) || (97 ≤ c && c ≤ 122) || c == 95 || c == 45

/-- `ceilN` of diskimage.ts lines 660-665: round `n` up to a multiple of `N`. -/
def ceilN (n : Nat) (N : Nat) : Nat :=
  if n % N ≠ 0 then n + (N - n % N) else n

/-- `sectorsToAllocationUnits` of lines 667-669: Math.ceil of the quotient. -/
def sectorsToAllocationUnits (sectors : Nat) (sectorsPerAllocationUnit : Nat) : Nat :=
  (sectors + sectorsPerAllocationUnit - 1) / sectorsPerAllocationUnit

/-- `PhysicalProperties` of diskimage.ts lines 18-33: the disk geometry. -/
structure PhysicalProperties where
  totalSectors : Nat
  sectorsPerTrack : Nat
  tracksPerSide : Nat
  numberOfSides : Nat
  density : Nat
deriving DecidableEq

/-- `getSectorsPerAllocationUnit` of diskimage.ts lines 675-687. -/
def getSectorsPerAllocationUnit (g : PhysicalProperties) : Nat :=
  if g.totalSectors < 1600 then 1
  else if g.totalSectors < 3200 then 2
  else if g.totalSectors < 6400 then 4
  else 8

/-- `getSectorsPerAllocationUnitForDataChainPointers` of lines 671-673. -/
def getSectorsPerAllocationUnitForDataChainPointers (g : PhysicalProperties) : Nat :=
  if g.totalSectors < 4096 then 1 else getSectorsPerAllocationUnit g

/-! ## The VARIABLE-record packer

Lines 317-345 of `createTIFile` and lines 595-628 of `createBinaryImage`
pack the records of a DATA/VARIABLE file into 256-byte sectors with the
same algorithm (the latter additionally tracks the sector number, but emits
the identical byte stream): each record is written as a length byte followed
by its payload; when the current sector cannot hold length byte plus
payload, the sector is closed with 0xFF and zero padding; after the last
record the final sector is closed the same way if any space is left in it.
`sectorBytesLeft` is an Int because nothing in the source keeps a record
longer than 255 bytes from driving it negative. -/

/-- One iteration of the packing loop (`for i < recordCount`, lines 318-337
and 596-617): state is the bytes emitted so far and `sectorBytesLeft`. -/
def packVarStep (st : List Nat × Int) (recData : List Nat) : List Nat × Int :=
  let out := st.1
  let left := st.2
  if left ≤ (recData.length : Int) then
    let out2 := if 0 < left then out ++ 255 :: List.replicate (left - 1).toNat 0 else out
    (out2 ++ (recData.length % 256) :: recData.map (fun b => b % 256),
      255 - (recData.length : Int))
  else
    (out ++ (recData.length % 256) :: recData.map (fun b => b % 256),
      left - 1 - recData.length)

/-- The packing loop over all records, started with an empty output and a
fresh 256-byte sector. -/
def packVarBody (recs : List (List Nat)) : List Nat × Int :=
  recs.foldl packVarStep ([], 256)

/-- The closing step after the loop (lines 338-345 and 618-625): if space is
left in the final sector, write 0xFF and zero-fill to the boundary. -/
def packVarClose (st : List Nat × Int) : List Nat :=
  if 0 < st.2 then st.1 ++ 255 :: List.replicate (st.2 - 1).toNat 0 else st.1

/-- The complete VARIABLE-record packing of a file's records. -/
def packVariable (recs : List (List Nat)) : List Nat :=
  packVarClose (packVarBody recs)

/-- Invariant of the packing loop state: `sectorBytesLeft` stays in [0, 256]
and output length plus remaining space is a positive multiple of 256. -/
def PackInv (st : List Nat × Int) : Prop :=
  0 ≤ st.2 ∧ st.2 ≤ 256 ∧ (st.1.length + st.2.toNat) % 256 = 0 ∧
    256 ≤ st.1.length + st.2.toNat

/-! ## The VARIABLE-record sector scanner

Lines 229-246 of `loadTIFile` and lines 473-489 of `loadBinaryImage` read
the VARIABLE records of one 256-byte sector with the same loop: read a
length byte; while it is not 0xFF and sector bytes remain, read that many
payload bytes (bounded by the remaining sector bytes), emit the record, and
read the next length byte if any sector bytes remain. -/

/-- The `while (recordLength !== 0xFF && sectorBytesLeft > 0)` loop, with a
structural fuel bounding the iteration count (each iteration consumes at
least one of the `left` remaining sector bytes, so `fuel = left` is always
enough; fuel exhaustion coincides with `left = 0`). -/
def varScanGo : Nat → List Nat → Nat → Nat → List (List Nat)
  | 0, _, _, _ => []
  | Nat.succ fuel, bytes, left, len =>
    if len = 255 ∨ left = 0 then []
    else
      let t := min len left
      let rest := bytes.drop t
      if left - t = 0 then [bytes.take t]
      else bytes.take t :: varScanGo fuel (rest.drop 1) (left - t - 1) (rest.headD 0)

/-- The scan loop: `bytes` is the stream positioned after the length byte
already read into `len`; `left` is `sectorBytesLeft` after that read. -/
def varScanLoop (bytes : List Nat) (left : Nat) (len : Nat) : List (List Nat) :=
  varScanGo left bytes left len

/-- Entry into the scan loop with `budget` sector bytes remaining and the
next byte being a length byte. -/
def scanFrom (bytes : List Nat) (budget : Nat) : List (List Nat) :=
  if budget = 0 then [] else varScanLoop (bytes.drop 1) (budget - 1) (bytes.headD 0)

/-- Scan of one whole 256-byte sector, as both decode sites start it
(`sectorBytesLeft = 256`, then the first length byte is read). -/
def sectorScan (bytes : List Nat) : List (List Nat) :=
  scanFrom bytes 256

/-- The per-sector decode loop of `loadTIFile` lines 229-246: scan `sectors`
consecutive 256-byte sectors of `buf` and concatenate their records. -/
def unpackVariable (buf : List Nat) (sectors : Nat) : List (List Nat) :=
  ((List.range sectors).map (fun s => sectorScan (buf.drop (s * 256)))).flatten

/-! ## Sector grouping: the specification view of the packer

`groupVar` splits a record list into the groups of records the packer puts
into one sector each; `encodeSector` is the 256-byte image of one group.
These are specification-side definitions used to relate `packVariable` to
`unpackVariable`. -/

/-- The byte image of a group of records before padding: each record as a
length byte followed by its payload. -/
def groupBody (g : List (List Nat)) : List Nat :=
  (g.map (fun r => (r.length % 256) :: r.map (fun b => b % 256))).flatten

/-- Greedy grouping of records into sectors, mirroring the packer's
`sectorBytesLeft <= data.length` test for starting a new sector. -/
def groupVarGo (cur : List (List Nat)) (left : Int) :
    List (List Nat) → List (List (List Nat))
  | [] => [cur]
  | r :: rs =>
    if left ≤ (r.length : Int) then cur :: groupVarGo [r] (255 - r.length) rs
    else groupVarGo (cur ++ [r]) (left - 1 - r.length) rs

/-- The groups of records the packer writes, one group per sector. -/
def groupVar (recs : List (List Nat)) : List (List (List Nat)) :=
  groupVarGo [] 256 recs

/-- The 256-byte sector image of one group: its body, then 0xFF and zero
padding if the body leaves space. -/
def encodeSector (g : List (List Nat)) : List Nat :=
  groupBody g ++
    (if (groupBody g).length < 256 then 255 :: List.replicate (255 - (groupBody g).length) 0
     else [])

/-- Well-formed records for the round trip: nonempty, at most 254 bytes of
payload (255 collides with the terminator, and an empty record placed in
the last byte of a sector is dropped by the scanner), byte values. -/
def WfRecord (r : List Nat) : Prop :=
  1 ≤ r.length ∧ r.length ≤ 254 ∧ ∀ b ∈ r, b < 256

instance (r : List Nat) : Decidable (WfRecord r) := by
  unfold WfRecord; infer_instance

/-- Record list of a DATA/VARIABLE file whose two 127-byte records exactly
fill one 256-byte sector. -/
def twoHalfSectorRecords : List (List Nat) :=
  [List.replicate 127 65, List.replicate 127 65]

/-! ## The file model

`DiskFile`, `FixedRecord` and `VariableRecord` live in diskfile.ts, which is
not part of the sources under verification; the parts of their behavior the
disk-image code depends on are modelled from the specification (sections 3
and 4.3 of the design document). The numeric values of the type enums are
fixed by their use in the flag bytes of diskimage.ts (recordType is bit 7,
dataType bit 1, fileType bit 0). -/

namespace FileType

def DATA : Nat := 0

def PROGRAM : Nat := 1

end FileType

namespace RecordType

def FIXED : Nat := 0

def VARIABLE : Nat := 1

end RecordType

namespace DataType

def DISPLAY : Nat := 0

def INTERNAL : Nat := 1

end DataType

/-- Modelled from the spec: a File Catalog Entry. Exactly one of
`records`/`program` is meaningful, selected by `fileType`; records are
stored as their payload byte lists. -/
structure DiskFile where
  name : List Nat
  fileType : Nat
  recordType : Nat
  recordLength : Nat
  dataType : Nat
  records : List (List Nat)
  program : List Nat
deriving DecidableEq

/-- Modelled from the spec: a Fixed record's payload length always equals
the declared record length; a short payload is zero-padded. -/
def FixedRecord (data : List Nat) (recordLength : Nat) : List Nat :=
  data.take recordLength ++ List.replicate (recordLength - data.length) 0

def DiskFile.getRecordCount (f : DiskFile) : Nat := f.records.length

/-- Modelled from the spec: the number of 256-byte sectors the content
occupies, rounded per the packing rules of section 4.3. -/
def DiskFile.getSectorCount (f : DiskFile) : Nat :=
  if f.fileType = FileType.DATA then
    if f.recordType = RecordType.FIXED then
      if f.recordLength = 0 then 0
      else (f.records.length + (256 / f.recordLength) - 1) / (256 / f.recordLength)
    else (packVariable f.records).length / 256
  else (f.program.length + 255) / 256

/-- Modelled from the spec: bytes used in the file's last sector, 0 meaning
a full sector. -/
def DiskFile.getEOFOffset (f : DiskFile) : Nat :=
  if f.fileType = FileType.DATA then
    if f.recordType = RecordType.FIXED then
      if f.recordLength = 0 ∨ f.records.length = 0 then 0
      else
        ((if f.records.length % (256 / f.recordLength) = 0 then 256 / f.recordLength
          else f.records.length % (256 / f.recordLength)) * f.recordLength) % 256
    else (packVarBody f.records).1.length % 256
  else f.program.length % 256

/-! ## The Disk Image state and catalog operations -/

/-- `DiskImageEvent` of diskimage.ts lines 6-16, with its two event type
strings as constructors. -/
inductive DiskImageEvent where
  | fileAdded (name : List Nat)
  | fileDeleted (name : List Nat)
deriving DecidableEq

/-- The fields of the `DiskImage` class (lines 37-40): name, catalog,
geometry and the nullable cached binary image. The catalog is an
association-by-name list in insertion order, matching a JS object with
non-integer keys. -/
structure DiskImageState where
  name : List Nat
  files : List DiskFile
  geometry : PhysicalProperties
  binaryImage : Option (List Nat)
deriving DecidableEq

/-- `this.files[file.getName()] = file` (line 83): replace in place if the
name is present, append otherwise. -/
def putCatalog (files : List DiskFile) (file : DiskFile) : List DiskFile :=
  if files.any (fun g => g.name == file.name) then
    files.map (fun g => if g.name == file.name then file else g)
  else files ++ [file]

/-- `putFile` of lines 82-86: insert the file, invalidate the cached binary
image, then fire a fileAdded notification. -/
def putFile (file : DiskFile) (s : DiskImageState) :
    DiskImageState × List DiskImageEvent :=
  ({ s with files := putCatalog s.files file, binaryImage := none },
   [DiskImageEvent.fileAdded file.name])

/-- `getFile` of lines 88-90. -/
def getFile (s : DiskImageState) (fileName : List Nat) : Option DiskFile :=
  s.files.find? (fun g => g.name == fileName)

/-- `deleteFile` of lines 92-96. -/
def deleteFile (fileName : List Nat) (s : DiskImageState) :
    DiskImageState × List DiskImageEvent :=
  ({ s with
      files := s.files.filter (fun g => !(g.name == fileName)),
      binaryImage := none },
   [DiskImageEvent.fileDeleted fileName])

/-- Byte-lexicographic name order. The source (line 79) sorts with
String.prototype.localeCompare, whose collation is implementation- and
locale-defined; every theorem below involves catalogs of at most one file,
for which the comparator is irrelevant. -/
def nameLeb : List Nat → List Nat → Bool
  | [], _ => true
  | _ :: _, [] => false
  | a :: as, b :: bs => if a < b then true else if b < a then false else nameLeb as bs

def insertSorted (f : DiskFile) : List DiskFile → List DiskFile
  | [] => [f]
  | g :: gs => if nameLeb f.name g.name then f :: g :: gs else g :: insertSorted f gs

/-- `getFilesArray` of lines 72-80: all catalog entries sorted by name. -/
def getFilesArray (s : DiskImageState) : List DiskFile :=
  s.files.foldr insertSorted []

/-- The snapshot consumed by `restoreState` (lines 729-740): a name and a
name-keyed map of per-file snapshots. Modelled from the spec: the per-file
state shape is opaque to the Disk Image (diskfile.ts is not part of the
sources), so a file snapshot is modelled as the restored DiskFile itself. -/
structure DiskImageSnapshot where
  name : List Nat
  files : List (List Nat × DiskFile)

/-- `restoreState` of lines 729-740: replace name and catalog, rebuilding
each entry keyed by its name. Neither the cached binary image nor the
geometry is touched. -/
def restoreState (st : DiskImageSnapshot) (s : DiskImageState) : DiskImageState :=
  { s with
      name := st.name,
      files := st.files.map (fun p => { p.2 with name := p.1 }) }

/-! ## Disk image encode (`createBinaryImage`, lines 517-658)

The encoder writes into a preallocated zeroed Uint8Array at absolute
positions tracked by `n`; positions are Int because the source can drive
the sector counter to `startSectorNo - 1` for empty content. -/

/-- `writeByte` (lines 699-702) against a buffer-and-position state. -/
def writeByteSt (st : List Nat × Int) (b : Nat) : List Nat × Int :=
  (setB st.1 st.2 b, st.2 + 1)

/-- `writeWord` (lines 704-708): big-endian 16-bit value. -/
def writeWordSt (st : List Nat × Int) (w : Nat) : List Nat × Int :=
  writeByteSt (writeByteSt st ((w &&& 0xFF00) >>> 8)) (w &&& 0x00FF)

/-- `writeLEWord` (lines 710-714): little-endian 16-bit value. -/
def writeLEWordSt (st : List Nat × Int) (w : Nat) : List Nat × Int :=
  writeByteSt (writeByteSt st (w &&& 0x00FF)) ((w &&& 0xFF00) >>> 8)

/-- `writeString` (lines 689-697): the string's code units, then spaces up
to the pad length. -/
def writeStringSt (st : List Nat × Int) (str : List Nat) (padLen : Nat) : List Nat × Int :=
  (List.range (padLen - str.length)).foldl (fun acc _ => writeByteSt acc 32)
    ((str.take padLen).foldl (fun acc c => writeByteSt acc c) st)

/-- FIXED content packing of `createBinaryImage` (lines 576-593): records
written back to back, jumping to the next sector after `recordPerSector`
records; afterwards the sector counter steps back if the last sector was
never written to. -/
def writeFixedContent (buf : List Nat) (startSectorNo : Int) (file : DiskFile) :
    List Nat × Int :=
  let recordPerSector := 256 / file.recordLength
  let res := file.records.foldl
    (fun (acc : (List Nat × Int) × Int × Nat) data =>
      let st2 := data.foldl (fun a b => writeByteSt a b) acc.1
      let recCnt2 := acc.2.2 + 1
      if recCnt2 = recordPerSector then
        ((st2.1, (acc.2.1 + 1) * 256), acc.2.1 + 1, 0)
      else (st2, acc.2.1, recCnt2))
    ((buf, startSectorNo * 256), startSectorNo, 0)
  (res.1.1, if res.2.2 = 0 then res.2.1 - 1 else res.2.1)

/-- VARIABLE content packing of `createBinaryImage` (lines 594-628): the
packer of `packVarStep`, with the write position forced to each new
sector's start and the sector counter tracked alongside. -/
def writeVariableContent (buf : List Nat) (startSectorNo : Int) (file : DiskFile) :
    List Nat × Int :=
  let res := file.records.foldl
    (fun (acc : (List Nat × Int) × Int × Int) data =>
      let st := acc.1
      let sectorNo := acc.2.1
      let left := acc.2.2
      let next :=
        if left ≤ (data.length : Int) then
          let stClosed :=
            if 0 < left then
              (List.range (left - 1).toNat).foldl (fun a _ => writeByteSt a 0)
                (writeByteSt st 255)
            else st
          ((stClosed.1, (sectorNo + 1) * 256), sectorNo + 1, (256 : Int))
        else (st, sectorNo, left)
      let st2 := writeByteSt next.1 data.length
      let st3 := data.foldl (fun a b => writeByteSt a b) st2
      (st3, next.2.1, next.2.2 - 1 - data.length))
    ((buf, startSectorNo * 256), startSectorNo, (256 : Int))
  let left := res.2.2
  let stClosed :=
    if 0 < left then
      (List.range (left - 1).toNat).foldl (fun a _ => writeByteSt a 0)
        (writeByteSt res.1 255)
    else res.1
  let left2 : Int := if 0 < left then 0 else left
  (stClosed.1, if left2 = 256 then res.2.1 - 1 else res.2.1)

/-- PROGRAM content of `createBinaryImage` (lines 630-637). -/
def writeProgramContent (buf : List Nat) (startSectorNo : Int) (file : DiskFile) :
    List Nat × Int :=
  let st := file.program.foldl (fun a b => writeByteSt a b) (buf, startSectorNo * 256)
  (st.1, startSectorNo + (file.program.length / 256 : Nat) -
    (if file.program.length % 256 = 0 then 1 else 0))

/-- `ceilN` on the Int-valued sector cursor (all uses are nonnegative). -/
def ceilNInt (n : Int) (N : Nat) : Int :=
  if n % N ≠ 0 then n + (N - n % N) else n

/-- Per-file body of the encoder loop (lines 544-656): descriptor-index
entry, File Descriptor Record, content, data-chain pointer and allocation
bitmap bits. State is the buffer and the next data sector cursor. -/
def encodeFileStep (sectorsPerAU sectorsPerAUForDCP firstFdrSector : Nat)
    (acc : List Nat × Int) (f : Nat) (file : DiskFile) : List Nat × Int :=
  let fdrSectorNo := firstFdrSector + f * sectorsPerAU
  let buf0 := (writeWordSt (acc.1, (256 + 2 * f : Int)) fdrSectorNo).1
  let fileDescriptorAddr : Int := (fdrSectorNo : Int) * 256
  let st0 : List Nat × Int := (buf0, fileDescriptorAddr)
  let st1 := writeStringSt st0 file.name 10
  let st2 := writeWordSt st1 0
  let st3 := writeByteSt st2
    ((file.recordType <<< 7) ||| (file.dataType <<< 1) ||| file.fileType)
  let st4 := writeByteSt st3
    (if file.fileType = FileType.DATA then
      256 / (file.recordLength + (if file.recordType = RecordType.VARIABLE then 1 else 0))
     else 0)
  let st5 := writeWordSt st4 file.getSectorCount
  let st6 := writeByteSt st5 file.getEOFOffset
  let st7 := writeByteSt st6 (if file.fileType = FileType.DATA then file.recordLength else 0)
  let st8 := writeLEWordSt st7
    (if file.fileType = FileType.DATA then
      (if file.recordType = RecordType.FIXED then file.getRecordCount else file.getSectorCount)
     else 0)
  let startSectorNo := acc.2
  let content :=
    if file.fileType = FileType.DATA then
      if file.recordType = RecordType.FIXED then writeFixedContent st8.1 startSectorNo file
      else writeVariableContent st8.1 startSectorNo file
    else writeProgramContent st8.1 startSectorNo file
  let sectorNo := content.2
  let nextDataSectorNo := ceilNInt (sectorNo + 1) sectorsPerAU
  let au := sectorsToAllocationUnits startSectorNo.toNat sectorsPerAUForDCP
  let sectorCount := sectorNo - startSectorNo
  let d0 : List Nat × Int := (content.1, fileDescriptorAddr + 0x1C)
  let d1 := writeByteSt d0 (au &&& 0x00FF)
  let d2 := writeByteSt d1 (((jsAnd sectorCount 0x000F) <<< 4) ||| ((au &&& 0x0F00) >>> 8))
  let d3 := writeByteSt d2 ((jsAnd sectorCount 0x0FF0) >>> 4)
  let startAU := sectorsToAllocationUnits startSectorNo.toNat sectorsPerAU
  let endAU := sectorsToAllocationUnits sectorNo.toNat sectorsPerAU
  let bufB := ((List.range ((endAU : Int) - startAU + 1).toNat).map (fun i => startAU + i)).foldl
    (fun b au2 => orBit b (0x38 + (au2 >>> 3)) (au2 &&& 7)) d3.1
  let fdrAU := sectorsToAllocationUnits fdrSectorNo sectorsPerAU
  let bufC := orBit bufB (0x38 + (fdrAU >>> 3)) (fdrAU &&& 7)
  (bufC, nextDataSectorNo)

/-- `createBinaryImage` of lines 517-658. -/
def createBinaryImage (s : DiskImageState) : List Nat :=
  let totalSectors := s.geometry.totalSectors
  let sectorsPerAU := getSectorsPerAllocationUnit s.geometry
  let sectorsPerAUForDCP := getSectorsPerAllocationUnitForDataChainPointers s.geometry
  let dskImg : List Nat := List.replicate (totalSectors * 256) 0
  let st0 : List Nat × Int := (dskImg, 0)
  let st1 := writeStringSt st0 s.name 10
  let st2 := writeWordSt st1 totalSectors
  let st3 := writeByteSt st2 s.geometry.sectorsPerTrack
  let st4 := writeStringSt st3 [68, 83, 75] 3
  let st5 := writeByteSt st4 0x20
  let st6 := writeByteSt st5 s.geometry.tracksPerSide
  let st7 := writeByteSt st6 s.geometry.numberOfSides
  let st8 := writeByteSt st7 s.geometry.density
  let buf1 := setB st8.1 0x38 (if sectorsPerAU = 1 then 0x03 else 0x01)
  let buf2 := (List.range 20).foldl (fun b i => setB b (0xEC + (i : Int)) 0xFF) buf1
  let files := getFilesArray s
  let fileCount := min files.length 127
  let firstFdrSector := max 2 sectorsPerAU
  let init : List Nat × Int :=
    (buf2, (ceilN (firstFdrSector + fileCount * sectorsPerAU) sectorsPerAU : Nat))
  ((files.take fileCount).enum.foldl
    (fun acc p => encodeFileStep sectorsPerAU sectorsPerAUForDCP firstFdrSector acc p.1 p.2)
    init).1

/-! ## Disk image decode (`loadBinaryImage`, lines 381-515) -/

/-- The descriptor-index word of slot `i` (line 401). -/
def descriptorWord (buf : List Nat) (i : Nat) : Nat :=
  (getB buf (0x100 + i * 2)) * 256 + getB buf (0x100 + i * 2 + 1)

/-- The per-sector body of the data-chain sweep (lines 461-502): FIXED
records, VARIABLE sector scan (with the out-of-range break of lines
490-493 ending the sweep early), or PROGRAM bytes. State: records,
program bytes, `sectorsLeft`. -/
def sweepSectors (buf : List Nat) (fileType recordType recordsPerSector recordLength eof : Nat) :
    List Nat → List (List Nat) × List Nat × Int → List (List Nat) × List Nat × Int
  | [], acc => acc
  | sector :: rest, (recs, program, sectorsLeft) =>
    if fileType = FileType.DATA then
      if recordType = RecordType.FIXED then
        let newRecs := (List.range recordsPerSector).map (fun recIdx =>
          FixedRecord (readBytes buf (sector * 256 + recIdx * recordLength) recordLength)
            recordLength)
        sweepSectors buf fileType recordType recordsPerSector recordLength eof rest
          (recs ++ newRecs, program, sectorsLeft - 1)
      else
        if sector * 256 < buf.length then
          sweepSectors buf fileType recordType recordsPerSector recordLength eof rest
            (recs ++ sectorScan (buf.drop (sector * 256)), program, sectorsLeft - 1)
        else (recs, program, sectorsLeft)
    else
      let newProg :=
        if 0 < sectorsLeft then
          readBytes buf (sector * 256)
            (if 1 < sectorsLeft ∨ (sectorsLeft = 1 ∧ eof = 0) then 256 else eof)
        else []
      sweepSectors buf fileType recordType recordsPerSector recordLength eof rest
        (recs, program ++ newProg, sectorsLeft - 1)

/-- One iteration of the data-chain-pointer loop (lines 446-504). State:
records, program bytes, `sectorsLeft`, `nLast`. The loop condition
`sectorsLeft > 0` is checked before each triplet. -/
def dcpStep (buf : List Nat) (spAUdcp fdr : Nat)
    (fileType recordType recordsPerSector recordLength eof : Nat)
    (acc : List (List Nat) × List Nat × Int × Int) (idx : Nat) :
    List (List Nat) × List Nat × Int × Int :=
  let recs := acc.1
  let program := acc.2.1
  let sectorsLeft := acc.2.2.1
  let nLast := acc.2.2.2
  if sectorsLeft ≤ 0 then acc
  else
    let p := fdr + 0x1C + 3 * idx
    let m := ((((getB buf (p + 1)) &&& 0x0F) <<< 8) ||| getB buf p) * spAUdcp
    let nv := ((getB buf (p + 2)) <<< 4) ||| (((getB buf (p + 1)) &&& 0xF0) >>> 4)
    if m = 0 then acc
    else
      let endSector : Int := (m : Int) + nv - (nLast + 1)
      let count := (endSector - m + 1).toNat
      let sectors := (List.range count).map (fun i => m + i)
      let swept := sweepSectors buf fileType recordType recordsPerSector recordLength eof
        sectors (recs, program, sectorsLeft)
      (swept.1, swept.2.1, swept.2.2, (nv : Int))

/-- Decode of one File Descriptor Record (lines 403-508) into a DiskFile. -/
def decodeFdr (buf : List Nat) (spAUdcp fileDescriptorSectorNo : Nat) : DiskFile :=
  let fdr := fileDescriptorSectorNo * 256
  let fileName := jsTrim (filteredAscii (readBytes buf fdr 10))
  let statusFlags := getB buf (fdr + 0x0C)
  let recordType := (statusFlags &&& 0x80) >>> 7
  let datatype := (statusFlags &&& 0x02) >>> 1
  let fileType := statusFlags &&& 0x01
  let recordsPerSector := getB buf (fdr + 0x0D)
  let sectorsAllocated := (getB buf (fdr + 0x0E)) * 256 + getB buf (fdr + 0x0F)
  let endOfFileOffset := getB buf (fdr + 0x10)
  let recordLength := getB buf (fdr + 0x11)
  let res := (List.range 0x4C).foldl
    (dcpStep buf spAUdcp fdr fileType recordType recordsPerSector recordLength endOfFileOffset)
    ([], [], (sectorsAllocated : Int), (-1 : Int))
  if fileType = FileType.DATA then
    ⟨fileName, fileType, recordType, recordLength, datatype, res.1, []⟩
  else
    ⟨fileName, fileType, 0, 0, 0, [], res.2.1⟩

/-- The 128-slot descriptor-index loop of `loadBinaryImage` (lines
400-511): each nonzero slot is decoded and inserted with `putFile`
(line 509), firing that method's fileAdded notification. -/
def loadLoop (buf : List Nat) (spAUdcp : Nat) :
    List Nat → DiskImageState → DiskImageState × List DiskImageEvent
  | [], s => (s, [])
  | i :: rest, s =>
    if descriptorWord buf i = 0 then loadLoop buf spAUdcp rest s
    else
      let file := decodeFdr buf spAUdcp (descriptorWord buf i)
      let ps := putFile file s
      let rs := loadLoop buf spAUdcp rest ps.1
      (rs.1, ps.2 ++ rs.2)

/-- `loadBinaryImage` of lines 381-515. The data-chain-pointer
allocation-unit size is taken from the geometry the image had BEFORE the
load (line 393/450); name, geometry and the cached binary image (set to
the input buffer verbatim) are replaced at the end (lines 512-514). -/
def loadBinaryImage (fileBuffer : List Nat) (s : DiskImageState) :
    DiskImageState × List DiskImageEvent :=
  let volumeName := jsTrim (filteredAscii (readBytes fileBuffer 0 10))
  let totalSectors := (getB fileBuffer 0x0A) * 256 + getB fileBuffer 0x0B
  let spAUdcp := getSectorsPerAllocationUnitForDataChainPointers s.geometry
  let sectorsPerTrack := getB fileBuffer 0x0C
  let tracksPerSide := getB fileBuffer 0x11
  let numberOfSides := getB fileBuffer 0x12
  let density := getB fileBuffer 0x13
  let res := loadLoop fileBuffer spAUdcp (List.range 128) { s with files := [] }
  ({ res.1 with
      name := volumeName,
      geometry := ⟨totalSectors, sectorsPerTrack, tracksPerSide, numberOfSides, density⟩,
      binaryImage := some fileBuffer }, res.2)

/-- `getBinaryImage` of lines 370-375: return the cache, computing and
storing it first when absent. -/
def getBinaryImage (s : DiskImageState) : List Nat × DiskImageState :=
  match s.binaryImage with
  | some b => (b, s)
  | none => (createBinaryImage s, { s with binaryImage := some (createBinaryImage s) })

/-- `readSector` of lines 360-368: a fresh 256-byte buffer filled from the
current binary image at offset `256 * sectorNo`. -/
def readSector (sectorNo : Nat) (s : DiskImageState) : List Nat × DiskImageState :=
  let r := getBinaryImage s
  ((List.range 256).map (fun i => getB r.1 (256 * sectorNo + i)), r.2)

/-! ## Single-file export (`createTIFile`, lines 269-358)

The output grows by sequential appends (the write position always equals
the array length), and the final `new Uint8Array(data)` coerces every
entry mod 256, which the append helpers already do. -/

def wByteA (data : List Nat) (b : Nat) : List Nat := data ++ [b % 256]

def wWordA (data : List Nat) (w : Nat) : List Nat :=
  wByteA (wByteA data ((w &&& 0xFF00) >>> 8)) (w &&& 0x00FF)

def wLEWordA (data : List Nat) (w : Nat) : List Nat :=
  wByteA (wByteA data (w &&& 0x00FF)) ((w &&& 0xFF00) >>> 8)

def wStringA (data : List Nat) (str : List Nat) (padLen : Nat) : List Nat :=
  ((str.take padLen).foldl wByteA data) ++ List.replicate (padLen - str.length) 32

/-- `createTIFile` of lines 269-358. The FIXED padding loop
(`while ((n & 0xFF) !== 0)`, line 310) aligns the absolute output
position, header included, to a multiple of 256. -/
def createTIFile (fileName : List Nat) (s : DiskImageState) : Option (List Nat) :=
  match getFile s fileName with
  | none => none
  | some file =>
    let h0 := wByteA [] 0x07
    let h1 := wStringA h0 [84, 73, 70, 73, 76, 69, 83] 7
    let h2 := wWordA h1 file.getSectorCount
    let h3 := wByteA h2 ((file.recordType <<< 7) ||| (file.dataType <<< 1) ||| file.fileType)
    let h4 := wByteA h3
      (if file.fileType = FileType.DATA ∧ 0 < file.recordLength then
        256 / (file.recordLength + (if file.recordType = RecordType.VARIABLE then 1 else 0))
       else 0)
    let h5 := wByteA h4 file.getEOFOffset
    let h6 := wByteA h5 file.recordLength
    let h7 := wLEWordA h6
      (if file.fileType = FileType.DATA then
        (if file.recordType = RecordType.FIXED then file.getRecordCount else file.getSectorCount)
       else 0)
    let h8 := wStringA h7 fileName 10
    let h9 := h8 ++ List.replicate (128 - h8.length) 0
    if file.fileType = FileType.DATA then
      if file.recordType = RecordType.FIXED then
        let recordPerSector := 256 / file.recordLength
        let res := file.records.foldl
          (fun (acc : List Nat × Nat) data =>
            let out := acc.1 ++ data.map (fun b => b % 256)
            let recCnt := acc.2 + 1
            if recCnt = recordPerSector then
              (out ++ List.replicate ((256 - out.length % 256) % 256) 0, 0)
            else (out, recCnt))
          (h9, 0)
        some res.1
      else some (h9 ++ packVariable file.records)
    else some (h9 ++ file.program.map (fun b => b % 256))

/-! ## Single-file import (`loadTIFile`, lines 98-267) -/

/-- The TIFILES signature test of line 116: first byte 0x07 and bytes 1-7
spelling TIFILES. -/
def tifilesSignature (buf : List Nat) : Bool :=
  getB buf 0 == 7 && readBytes buf 1 7 == [84, 73, 70, 73, 76, 69, 83]

/-- The V9T9 test of line 144: the first 8 bytes, trimmed and upper-cased,
equal the first 8 characters of the supplied name, trimmed and upper-cased. -/
def v9t9Signature (fileName buf : List Nat) : Bool :=
  jsToUpper (jsTrim (readBytes buf 0 8)) == jsToUpper (jsTrim (fileName.take 8))

/-- The embedded TIFILES name of lines 117-124: bytes 0x10-0x19 filtered to
printable ASCII and trimmed, unless suppressed by the caller or the 0xCA
sentinel. -/
def tifilesEmbeddedName (buf : List Nat) (ignoreTIFileName : Bool) : List Nat :=
  if !ignoreTIFileName && !(getB buf 0x10 == 0xCA) then
    jsTrim (filteredAscii (readBytes buf 0x10 10))
  else []

/-- The fallback name of the TIFILES branch (lines 128-132): the supplied
name filtered to the filesystem charset while the RESULT is shorter than
10 characters. -/
def derivedNameTIFILES (fileName : List Nat) : List Nat :=
  fileName.foldl (fun acc c => if isFsChar c ∧ acc.length < 10 then acc ++ [c] else acc) []

/-- The derived name of the fallback branch (lines 165-170). The length
test is on the SUPPLIED name, not on the name being built: when the
supplied name has 10 or more characters the condition is false at every
character and the result is empty. -/
def derivedNameFallback (fileName : List Nat) : List Nat :=
  fileName.foldl (fun acc c => if isFsChar c ∧ fileName.length < 10 then acc ++ [c] else acc) []

/-- The declared content length of a TIFILES header (line 142):
`sectors*256 - (eofOffset > 0 ? 256 - eofOffset : 0)`, an Int because a
zero sector count with a nonzero EOF offset makes it negative. -/
def tifilesDeclaredLength (buf : List Nat) : Int :=
  let sectors := (getB buf 0x08) * 256 + getB buf 0x09
  let eofOffset := getB buf 0x0C
  (sectors * 256 : Int) - (if 0 < eofOffset then (256 : Int) - eofOffset else 0)

/-- The declared content length of a V9T9 header (line 161). -/
def v9t9DeclaredLength (buf : List Nat) : Int :=
  let sectors := (getB buf 0x0E) * 256 + getB buf 0x0F
  let eofOffset := getB buf 0x10
  (sectors * 256 : Int) - (if 0 < eofOffset then (256 : Int) - eofOffset else 0)

/-- The FIXED record split of a sector-aligned content window (lines
200-210): per sector, up to `recsPerSector` chunks of `recordLength`
bytes, skipping chunks past the declared content length. -/
def tiFixedRecords (buf : List Nat) (sectorOffset sectors recsPerSector recordLength : Nat)
    (fileLength : Int) : List (List Nat) :=
  ((List.range sectors).map (fun sector =>
    (List.range recsPerSector).filterMap (fun rec =>
      if ((sector * 256 + rec * recordLength : Nat) : Int) < fileLength then
        some (FixedRecord
          (readBytes buf (sectorOffset + sector * 256 + rec * recordLength) recordLength)
          recordLength)
      else none))).flatten

/-- The fallback FIXED chunking of a flat stream (lines 211-227): fill
`recordLength`-byte chunks, skip an optional CRLF after a full chunk
(`buf[i] == 0x0D || buf[i+1] == 0x0A`), and emit a trailing short chunk.
The structural fuel equals the number of bytes left to visit. -/
def pcChunkGo (buf : List Nat) (recordLength : Nat) :
    Nat → Nat → List Nat → List (List Nat)
  | 0, _, data => if 0 < data.length then [FixedRecord data recordLength] else []
  | Nat.succ fuel, i, data =>
    if i < buf.length then
      let data2 := data ++ [getB buf i]
      if data2.length = recordLength then
        let i3 := if getB buf (i + 1) = 0x0D ∨ getB buf (i + 2) = 0x0A then i + 3 else i + 1
        FixedRecord data2 recordLength :: pcChunkGo buf recordLength fuel i3 []
      else pcChunkGo buf recordLength fuel (i + 1) data2
    else if 0 < data.length then [FixedRecord data recordLength] else []

def pcChunkRecords (buf : List Nat) (recordLength : Nat) : List (List Nat) :=
  pcChunkGo buf recordLength buf.length 0 []

/-- The shared tail of `loadTIFile` (lines 192-263): length check, record
or program extraction, `putFile` on success (with its notification),
absent result with the catalog untouched on failure. -/
def finishLoadTIFile (fileBuffer : List Nat) (s : DiskImageState) (tiFileName : List Nat)
    (fileType recordType recordLength datatype recsPerSector sectors : Nat)
    (fileLength : Int) (sectorOffset : Nat) (pcFormat : Bool) :
    Option DiskFile × DiskImageState × List DiskImageEvent :=
  if sectorOffset + fileLength ≤ (fileBuffer.length : Int) then
    let file : DiskFile :=
      if fileType = FileType.DATA then
        let records :=
          if recordType = RecordType.FIXED then
            if !pcFormat then
              tiFixedRecords fileBuffer sectorOffset sectors recsPerSector recordLength fileLength
            else pcChunkRecords fileBuffer recordLength
          else
            ((List.range sectors).map (fun sector =>
              sectorScan (fileBuffer.drop (sectorOffset + sector * 256)))).flatten
        ⟨tiFileName, fileType, recordType, recordLength, datatype, records, []⟩
      else
        ⟨tiFileName, fileType, 0, 0, 0, [], readBytes fileBuffer sectorOffset fileLength.toNat⟩
    let ps := putFile file s
    (some file, ps.1, ps.2)
  else (none, s, [])

/-- `loadTIFile` of lines 98-267: detect TIFILES, V9T9 or fall back to
flat DISPLAY/FIXED 80 data; reject buffers of 128 bytes or less outright. -/
def loadTIFile (fileName : List Nat) (fileBuffer : List Nat) (ignoreTIFileName : Bool)
    (s : DiskImageState) : Option DiskFile × DiskImageState × List DiskImageEvent :=
  if fileBuffer.length ≤ 0x80 then (none, s, [])
  else
    if tifilesSignature fileBuffer then
      let embedded := tifilesEmbeddedName fileBuffer ignoreTIFileName
      let tiFileName := if 0 < embedded.length then embedded else derivedNameTIFILES fileName
      let flags := getB fileBuffer 0x0A
      finishLoadTIFile fileBuffer s tiFileName
        (flags &&& 0x01) ((flags &&& 0x80) >>> 7) (getB fileBuffer 0x0D)
        ((flags &&& 0x02) >>> 1) (getB fileBuffer 0x0B)
        ((getB fileBuffer 0x08) * 256 + getB fileBuffer 0x09)
        (tifilesDeclaredLength fileBuffer) 0x80 false
    else if v9t9Signature fileName fileBuffer then
      let tiFileName := jsTrim (filteredAscii (readBytes fileBuffer 0 10))
      let flags := getB fileBuffer 0x0C
      finishLoadTIFile fileBuffer s tiFileName
        (flags &&& 0x01) ((flags &&& 0x80) >>> 7) (getB fileBuffer 0x11)
        ((flags &&& 0x02) >>> 1) (getB fileBuffer 0x0D)
        ((getB fileBuffer 0x0E) * 256 + getB fileBuffer 0x0F)
        (v9t9DeclaredLength fileBuffer) 0x80 false
    else
      finishLoadTIFile fileBuffer s (derivedNameFallback fileName)
        FileType.DATA RecordType.FIXED 80 DataType.DISPLAY 3
        (fileBuffer.length / 256) (fileBuffer.length : Int) 0 true

/-! ## Claim theorems for the Disk Image operations -/

/-- The cache invariant of the specification: a present cached binary image
is byte-for-byte what `createBinaryImage` would currently produce. -/
def CacheInv (s : DiskImageState) : Prop :=
  ∀ b, s.binaryImage = some b → b = createBinaryImage s

/-- A one-record DATA/FIXED file used by the C2 counterexample snapshot. -/
def smallFixedFile : DiskFile :=
  ⟨[70], 0, 0, 16, 0, [[1, 2, 3, 4, 5, 6, 7, 8, 9, 10, 11, 12, 13, 14, 15, 16]], []⟩

/-- An empty 4-sector disk image named A, with no cached image. -/
def emptyDiskA : DiskImageState := ⟨[65], [], ⟨4, 1, 1, 1, 1⟩, none⟩

/-- The same image after getBinaryImage established a fresh cache. -/
def cachedDiskA : DiskImageState := (getBinaryImage emptyDiskA).2

/-- A persistence snapshot carrying a different name and one file. -/
def snapshotB : DiskImageSnapshot := ⟨[66], [([70], smallFixedFile)]⟩

/-- The one-file fixture for the round-trip evaluation: a DATA/FIXED file
F with record length 4 and a single record [1, 2, 3, 4], on a 4-sector
geometry. Records per sector is 256 / 4 = 64. -/
def oneRecordFile : DiskFile := ⟨[70], 0, 0, 4, 0, [[1, 2, 3, 4]], []⟩

def oneFileDisk : DiskImageState := ⟨[86], [oneRecordFile], ⟨4, 1, 1, 1, 1⟩, none⟩

/-- A freshly constructed disk image (constructor defaults, lines 44-51). -/
def freshDisk : DiskImageState := ⟨[], [], ⟨1440, 18, 2, 2, 2⟩, none⟩

/-- A 130-byte TIFILES buffer declaring 2 sectors (512 content bytes). -/
def shortTifilesBuffer : List Nat :=
  7 :: [84, 73, 70, 73, 76, 69, 83] ++ [0, 2] ++ List.replicate 120 0

/-- A 130-byte V9T9-style buffer for the name ABCDEFGH declaring 200
sectors. -/
def shortV9t9Buffer : List Nat :=
  [65, 66, 67, 68, 69, 70, 71, 72] ++ List.replicate 6 0 ++ [0, 200] ++ List.replicate 114 0

/-- The 11-character supplied name ABCDEFGHIJK. -/
def elevenCharName : List Nat := [65, 66, 67, 68, 69, 70, 71, 72, 73, 74, 75]

/-- A 384-byte buffer of ASCII zeros: matches neither the TIFILES nor the
V9T9 signature for that name, so import takes the fallback path. -/
def fallbackBuffer : List Nat := List.replicate 384 48

/-! ## Theorems -/
theorem packVarStep_inv {st : List Nat × Int} {r : List Nat}
    (hr : r.length ≤ 255) (h : PackInv st) : PackInv (packVarStep st r) := by
  obtain ⟨h0, h256, hmod, hpos⟩ := h
  unfold packVarStep PackInv
  by_cases hc : st.2 ≤ (r.length : Int)
  · simp only [hc, if_true]
    by_cases hl : 0 < st.2
    · simp only [hl, if_true]
      refine ⟨by omega, by omega, ?_, ?_⟩ <;>
        · simp only [List.length_append, List.length_cons, List.length_replicate,
            List.length_map]
          omega
    · simp only [hl, if_false]
      refine ⟨by omega, by omega, ?_, ?_⟩ <;>
        · simp only [List.length_append, List.length_cons, List.length_map]
          omega
  · simp only [hc, if_false]
    refine ⟨by omega, by omega, ?_, ?_⟩ <;>
      · simp only [List.length_append, List.length_cons, List.length_map]
        omega

theorem packVarBody_inv (recs : List (List Nat))
    (h : ∀ r ∈ recs, r.length ≤ 255) : PackInv (packVarBody recs) := by
  unfold packVarBody
  have hinit : PackInv (([], 256) : List Nat × Int) := by
    constructor <;> simp [PackInv]
  generalize hst : (([], 256) : List Nat × Int) = st at hinit
  clear hst
  induction recs generalizing st with
  | nil => simpa using hinit
  | cons r rs ih =>
    simp only [List.foldl_cons]
    exact ih (fun x hx => h x (List.mem_cons_of_mem r hx)) _
      (packVarStep_inv (h r (List.mem_cons_self r rs)) hinit)

theorem varScanGo_fuel_irrel (fuel1 : Nat) :
    ∀ fuel2 bytes left len, left ≤ fuel1 → left ≤ fuel2 →
    varScanGo fuel1 bytes left len = varScanGo fuel2 bytes left len := by
  induction fuel1 with
  | zero =>
    intro fuel2 bytes left len h1 _
    have hz : left = 0 := by omega
    cases fuel2 with
    | zero => rfl
    | succ f => simp [varScanGo, hz]
  | succ f1 ih =>
    intro fuel2 bytes left len h1 h2
    cases fuel2 with
    | zero =>
      have hz : left = 0 := by omega
      simp [varScanGo, hz]
    | succ f2 =>
      unfold varScanGo
      by_cases hc : len = 255 ∨ left = 0
      · simp [hc]
      · rw [if_neg hc, if_neg hc]
        by_cases hrem : left - min len left = 0
        · rw [if_pos hrem, if_pos hrem]
        · rw [if_neg hrem, if_neg hrem,
            ih f2 (bytes.drop (min len left) |>.drop 1) (left - min len left - 1) _
              (by omega) (by omega)]

/-- One-step unfolding of the scan loop. -/
theorem varScanLoop_eq (bytes : List Nat) (left len : Nat) :
    varScanLoop bytes left len =
      if len = 255 ∨ left = 0 then []
      else if left - min len left = 0 then [bytes.take (min len left)]
      else bytes.take (min len left) ::
        varScanLoop ((bytes.drop (min len left)).drop 1) (left - min len left - 1)
          ((bytes.drop (min len left)).headD 0) := by
  cases left with
  | zero => simp [varScanLoop, varScanGo]
  | succ n =>
    have hunfold : varScanGo (n + 1) bytes (n + 1) len =
        if len = 255 ∨ n + 1 = 0 then []
        else if n + 1 - min len (n + 1) = 0 then [bytes.take (min len (n + 1))]
        else bytes.take (min len (n + 1)) ::
          varScanGo n ((bytes.drop (min len (n + 1))).drop 1) (n + 1 - min len (n + 1) - 1)
            ((bytes.drop (min len (n + 1))).headD 0) := rfl
    show varScanGo (n + 1) bytes (n + 1) len =
      if len = 255 ∨ n + 1 = 0 then []
      else if n + 1 - min len (n + 1) = 0 then [bytes.take (min len (n + 1))]
      else bytes.take (min len (n + 1)) ::
        varScanLoop ((bytes.drop (min len (n + 1))).drop 1) (n + 1 - min len (n + 1) - 1)
          ((bytes.drop (min len (n + 1))).headD 0)
    rw [hunfold]
    by_cases hc : len = 255 ∨ n + 1 = 0
    · rw [if_pos hc, if_pos hc]
    · rw [if_neg hc, if_neg hc]
      by_cases hrem : n + 1 - min len (n + 1) = 0
      · rw [if_pos hrem, if_pos hrem]
      · rw [if_neg hrem, if_neg hrem]
        unfold varScanLoop
        rw [varScanGo_fuel_irrel n (n + 1 - min len (n + 1) - 1)
          ((bytes.drop (min len (n + 1))).drop 1) (n + 1 - min len (n + 1) - 1)
          ((bytes.drop (min len (n + 1))).headD 0) (by omega) (by omega)]

theorem groupBody_nil : groupBody [] = [] := rfl

theorem groupBody_cons (r : List Nat) (g : List (List Nat)) :
    groupBody (r :: g) = (r.length % 256) :: r.map (fun b => b % 256) ++ groupBody g := by
  simp [groupBody]

theorem groupBody_append (a b : List (List Nat)) :
    groupBody (a ++ b) = groupBody a ++ groupBody b := by
  simp [groupBody]

theorem groupBody_singleton_length (r : List Nat) :
    (groupBody [r]).length = 1 + r.length := by
  simp [groupBody]; omega

theorem groupBody_eq_nil_iff (g : List (List Nat)) :
    (groupBody g).length = 0 ↔ g = [] := by
  cases g with
  | nil => simp [groupBody]
  | cons r g => simp [groupBody_cons]

/-- Grouping loses no record and keeps their order. -/
theorem groupVarGo_join (rs : List (List Nat)) :
    ∀ cur left, (groupVarGo cur left rs).flatten = cur ++ rs := by
  induction rs with
  | nil => intro cur left; simp [groupVarGo]
  | cons r rs ih =>
    intro cur left
    unfold groupVarGo
    by_cases hc : left ≤ (r.length : Int)
    · simp [hc, ih]
    · simp [hc, ih]

theorem groupVar_join (recs : List (List Nat)) : (groupVar recs).flatten = recs := by
  simp [groupVar, groupVarGo_join]

/-- Every record of every group comes from the grouped list. -/
theorem groupVar_mem {recs : List (List Nat)} {g : List (List Nat)} {r : List Nat}
    (hg : g ∈ groupVar recs) (hr : r ∈ g) : r ∈ recs := by
  have : r ∈ (groupVar recs).flatten := List.mem_flatten.2 ⟨g, hg, hr⟩
  rwa [groupVar_join] at this

/-- Every group body produced by the grouping fits into one sector. -/
theorem groupVarGo_bodyLen (rs : List (List Nat)) :
    ∀ cur, (∀ r ∈ rs, r.length ≤ 255) → (groupBody cur).length ≤ 256 →
    ∀ g ∈ groupVarGo cur (256 - ((groupBody cur).length : Int)) rs,
      (groupBody g).length ≤ 256 := by
  induction rs with
  | nil =>
    intro cur _ hcur g hgmem
    simp only [groupVarGo, List.mem_singleton] at hgmem
    exact hgmem ▸ hcur
  | cons r rs ih =>
    intro cur hlens hcur g hgmem
    have hrlen : r.length ≤ 255 := hlens r (List.mem_cons_self r rs)
    have hlens2 : ∀ x ∈ rs, x.length ≤ 255 :=
      fun x hx => hlens x (List.mem_cons_of_mem r hx)
    unfold groupVarGo at hgmem
    by_cases hc : (256 : Int) - ((groupBody cur).length : Int) ≤ (r.length : Int)
    · rw [if_pos hc] at hgmem
      rcases List.mem_cons.1 hgmem with hgc | hgrest
      · exact hgc ▸ hcur
      · have h1 : ((255 : Int) - (r.length : Int)) = 256 - ((groupBody [r]).length : Int) := by
          rw [groupBody_singleton_length]; push_cast; ring
        have h2 : (groupBody [r]).length ≤ 256 := by
          rw [groupBody_singleton_length]; omega
        exact ih [r] hlens2 h2 g (h1 ▸ hgrest)
    · rw [if_neg hc] at hgmem
      have hlen : (groupBody (cur ++ [r])).length =
          (groupBody cur).length + (1 + r.length) := by
        rw [groupBody_append, List.length_append, groupBody_singleton_length]
      have h1 : ((256 : Int) - ((groupBody cur).length : Int) - 1 - (r.length : Int)) =
          256 - ((groupBody (cur ++ [r])).length : Int) := by
        rw [hlen]; push_cast; ring
      have h2 : (groupBody (cur ++ [r])).length ≤ 256 := by
        rw [hlen]; omega
      exact ih (cur ++ [r]) hlens2 h2 g (h1 ▸ hgmem)

theorem groupBody_singleton (r : List Nat) :
    groupBody [r] = (r.length % 256) :: r.map (fun b => b % 256) := by
  simp [groupBody]

/-- The packer emits exactly the concatenation of the encoded sectors of the
greedy grouping. -/
theorem packVar_foldl_groups (rs : List (List Nat)) :
    ∀ cur pre left, (∀ r ∈ rs, r.length ≤ 255) →
    (groupBody cur).length ≤ 256 → left = 256 - ((groupBody cur).length : Int) →
    packVarClose (rs.foldl packVarStep (pre ++ groupBody cur, left)) =
      pre ++ ((groupVarGo cur left rs).map encodeSector).flatten := by
  induction rs with
  | nil =>
    intro cur pre left _ hcur hleft
    simp only [List.foldl_nil, groupVarGo, List.map_cons, List.map_nil,
      List.flatten_cons, List.flatten_nil, List.append_nil]
    unfold packVarClose encodeSector
    by_cases hl : (groupBody cur).length < 256
    · rw [if_pos (show (0 : Int) < left by omega), if_pos hl]
      have ht : (left - 1).toNat = 255 - (groupBody cur).length := by omega
      rw [ht, List.append_assoc]
    · rw [if_neg (show ¬ (0 : Int) < left by omega), if_neg hl, List.append_nil]
  | cons r rs ih =>
    intro cur pre left hlens hcur hleft
    have hrlen : r.length ≤ 255 := hlens r (List.mem_cons_self r rs)
    have hlens2 : ∀ x ∈ rs, x.length ≤ 255 :=
      fun x hx => hlens x (List.mem_cons_of_mem r hx)
    simp only [List.foldl_cons]
    unfold groupVarGo
    by_cases hc : left ≤ (r.length : Int)
    · have hstep : packVarStep (pre ++ groupBody cur, left) r =
          ((pre ++ encodeSector cur) ++ groupBody [r], 255 - (r.length : Int)) := by
        unfold packVarStep encodeSector
        rw [if_pos hc, groupBody_singleton]
        by_cases hl0 : (0 : Int) < left
        · have hlt : (groupBody cur).length < 256 := by omega
          rw [if_pos hl0, if_pos hlt]
          have ht : (left - 1).toNat = 255 - (groupBody cur).length := by omega
          rw [ht]
          simp [List.append_assoc]
        · have hlt : ¬ (groupBody cur).length < 256 := by omega
          rw [if_neg hl0, if_neg hlt]
          simp
      rw [if_pos hc, hstep]
      have hb1 : (groupBody [r]).length ≤ 256 := by
        rw [groupBody_singleton_length]; omega
      have hl1 : (255 : Int) - (r.length : Int) = 256 - ((groupBody [r]).length : Int) := by
        rw [groupBody_singleton_length]; push_cast; ring
      rw [ih [r] (pre ++ encodeSector cur) (255 - (r.length : Int)) hlens2 hb1 hl1]
      simp [List.append_assoc]
    · have hstep : packVarStep (pre ++ groupBody cur, left) r =
          (pre ++ groupBody (cur ++ [r]), left - 1 - (r.length : Int)) := by
        unfold packVarStep
        rw [if_neg hc, groupBody_append, groupBody_singleton]
        simp [List.append_assoc]
      rw [if_neg hc, hstep]
      have hblen : (groupBody (cur ++ [r])).length =
          (groupBody cur).length + (1 + r.length) := by
        rw [groupBody_append, List.length_append, groupBody_singleton_length]
      have hb1 : (groupBody (cur ++ [r])).length ≤ 256 := by
        rw [hblen]; omega
      have hl1 : left - 1 - (r.length : Int) = 256 - ((groupBody (cur ++ [r])).length : Int) := by
        rw [hblen]; push_cast; omega
      rw [ih (cur ++ [r]) pre (left - 1 - (r.length : Int)) hlens2 hb1 hl1]

/-- `packVariable` is the concatenation of the encoded sectors of the greedy
grouping of the records. -/
theorem packVariable_eq_groups (recs : List (List Nat))
    (h : ∀ r ∈ recs, r.length ≤ 255) :
    packVariable recs = ((groupVar recs).map encodeSector).flatten := by
  have hmain := packVar_foldl_groups recs [] [] 256 h
    (by simp [groupBody]) (by simp [groupBody])
  simpa [packVariable, packVarBody, groupVar, groupBody] using hmain

/-- Scanning a stream that starts with a group body recovers exactly the
group's records: `budget` sector bytes remain, the body fits in them, and
if the body leaves a gap the next byte is the 0xFF terminator. -/
theorem scanFrom_groupBody (g : List (List Nat)) :
    ∀ tail budget, (∀ r ∈ g, WfRecord r) →
    (groupBody g).length ≤ budget → budget ≤ 256 → 1 ≤ budget →
    ((groupBody g).length < budget → tail.headD 0 = 255) →
    scanFrom (groupBody g ++ tail) budget = g := by
  induction g with
  | nil =>
    intro tail budget _ _ _ hb1 hterm
    have h255 : tail.headD 0 = 255 := hterm (by simp [groupBody]; omega)
    rw [groupBody_nil, List.nil_append]
    unfold scanFrom
    rw [if_neg (by omega), varScanLoop_eq, h255]
    simp
  | cons r g ih =>
    intro tail budget hg hblen hb256 hb1 hterm
    obtain ⟨hr1, hr254, hrbytes⟩ := hg r (List.mem_cons_self r g)
    have hg2 : ∀ x ∈ g, WfRecord x := fun x hx => hg x (List.mem_cons_of_mem r hx)
    have hmap : r.map (fun b => b % 256) = r := by
      rw [show r.map (fun b => b % 256) = r.map id from
        List.map_congr_left (fun b hb => Nat.mod_eq_of_lt (by
          have := hrbytes b hb; omega)), List.map_id]
    have hlenmod : r.length % 256 = r.length := Nat.mod_eq_of_lt (by omega)
    have hbodylen : (groupBody (r :: g)).length = 1 + r.length + (groupBody g).length := by
      rw [groupBody_cons]
      simp [hmap]
      omega
    have hbudget2 : r.length + (groupBody g).length + 1 ≤ budget := by
      rw [hbodylen] at hblen; omega
    rw [groupBody_cons, hmap, hlenmod]
    simp only [List.cons_append, List.append_assoc]
    unfold scanFrom
    rw [if_neg (by omega)]
    simp only [List.headD_cons, List.drop_one, List.tail_cons]
    rw [varScanLoop_eq]
    rw [if_neg (show ¬ (r.length = 255 ∨ budget - 1 = 0) by omega)]
    have hmin : min (r.length) (budget - 1) = r.length := by omega
    rw [hmin, List.take_left, List.drop_left]
    by_cases hrem : budget - 1 - r.length = 0
    · have hgnil : g = [] := by
        have : (groupBody g).length = 0 := by omega
        exact (groupBody_eq_nil_iff g).1 this
      rw [if_pos hrem, hgnil]
    · rw [if_neg hrem]
      have hrec : varScanLoop ((groupBody g ++ tail).drop 1) (budget - 1 - r.length - 1)
          ((groupBody g ++ tail).headD 0) = scanFrom (groupBody g ++ tail) (budget - 1 - r.length) := by
        unfold scanFrom
        rw [if_neg hrem]
      rw [hrec, ih tail (budget - 1 - r.length) hg2 (by omega) (by omega) (by omega)
        (fun hlt => hterm (by omega))]

/-- The encoded sector of a group that fits is exactly 256 bytes. -/
theorem encodeSector_length (g : List (List Nat))
    (h : (groupBody g).length ≤ 256) : (encodeSector g).length = 256 := by
  unfold encodeSector
  by_cases hl : (groupBody g).length < 256
  · rw [if_pos hl]
    simp only [List.length_append, List.length_cons, List.length_replicate]
    omega
  · rw [if_neg hl]
    simp only [List.length_append, List.length_nil]
    omega

/-- Scanning a 256-byte stream that starts with an encoded sector recovers
the group's records. -/
theorem sectorScan_encodeSector (g : List (List Nat)) (tail : List Nat)
    (hg : ∀ r ∈ g, WfRecord r) (hb : (groupBody g).length ≤ 256) :
    sectorScan (encodeSector g ++ tail) = g := by
  unfold sectorScan encodeSector
  by_cases hl : (groupBody g).length < 256
  · rw [if_pos hl, List.append_assoc]
    exact scanFrom_groupBody g _ 256 hg (by omega) (by omega) (by omega)
      (fun _ => by simp)
  · rw [if_neg hl, List.append_nil]
    exact scanFrom_groupBody g tail 256 hg (by omega) (by omega) (by omega)
      (fun hlt => absurd hlt hl)

/-- Scanning the concatenation of encoded sectors, one sector at a time,
recovers the concatenation of the groups. -/
theorem unpackVariable_encoded (gs : List (List (List Nat)))
    (h : ∀ g ∈ gs, (∀ r ∈ g, WfRecord r) ∧ (groupBody g).length ≤ 256) :
    unpackVariable ((gs.map encodeSector).flatten) gs.length = gs.flatten := by
  induction gs with
  | nil => simp [unpackVariable]
  | cons g gs ih =>
    obtain ⟨hg, hb⟩ := h g (List.mem_cons_self g gs)
    have hrest : ∀ x ∈ gs, (∀ r ∈ x, WfRecord r) ∧ (groupBody x).length ≤ 256 :=
      fun x hx => h x (List.mem_cons_of_mem g hx)
    have hbuf : ((g :: gs).map encodeSector).flatten =
        encodeSector g ++ (gs.map encodeSector).flatten := by
      simp
    unfold unpackVariable
    rw [List.length_cons, List.range_succ_eq_map, hbuf]
    simp only [List.map_cons, List.map_map, List.flatten_cons, Function.comp_def]
    have hfirst : sectorScan ((encodeSector g ++ (gs.map encodeSector).flatten).drop (0 * 256))
        = g := by
      rw [Nat.zero_mul, List.drop_zero]
      exact sectorScan_encodeSector g _ hg hb
    have hshift : ∀ s : Nat,
        (encodeSector g ++ (gs.map encodeSector).flatten).drop (Nat.succ s * 256) =
          ((gs.map encodeSector).flatten).drop (s * 256) := by
      intro s
      rw [Nat.succ_mul, Nat.add_comm,
        show 256 + s * 256 = (encodeSector g).length + s * 256 by
          rw [encodeSector_length g hb],
        List.drop_append]
    rw [hfirst]
    have hmaps : ((List.range gs.length).map
          (fun s => sectorScan ((encodeSector g ++ (gs.map encodeSector).flatten).drop
            (Nat.succ s * 256))))
        = (List.range gs.length).map
          (fun s => sectorScan (((gs.map encodeSector).flatten).drop (s * 256))) :=
      List.map_congr_left (fun s _ => by rw [hshift s])
    rw [hmaps]
    unfold unpackVariable at ih
    rw [ih hrest]

theorem flatten_length_const (L : List (List Nat)) (h : ∀ x ∈ L, x.length = 256) :
    L.flatten.length = 256 * L.length := by
  induction L with
  | nil => simp
  | cons x L ih =>
    simp only [List.flatten_cons, List.length_append, List.length_cons]
    rw [h x (List.mem_cons_self x L), ih (fun y hy => h y (List.mem_cons_of_mem x hy))]
    ring

/-- C7 counterexample: a 255-byte VARIABLE record is emitted with length
byte 0xFF (the terminator value) and is lost when the packed sector is
scanned back; an empty record that lands on the last byte of a sector is
also dropped by the scanner. Neither case is rejected or special-cased. -/
theorem c7_counterexample_255_byte_record :
    packVariable [List.replicate 255 65] = 255 :: List.replicate 255 65 ∧
    unpackVariable (packVariable [List.replicate 255 65])
      ((packVariable [List.replicate 255 65]).length / 256) = [] ∧
    unpackVariable (packVariable [List.replicate 254 65, []])
      ((packVariable [List.replicate 254 65, []]).length / 256)
      = [List.replicate 254 65] := by decide

/-- C7 (amended): for a DATA/VARIABLE file each of whose records has 1 to
254 payload bytes, no emitted record-length byte is ever read back as the
0xFF terminator: scanning the packed sectors recovers exactly the original
records. A 255-byte record is emitted with a 0xFF length byte (not
rejected or special-cased) and is lost on read-back. -/
theorem c7_variable_pack_unpack_roundtrip (recs : List (List Nat))
    (h : ∀ r ∈ recs, WfRecord r) :
    unpackVariable (packVariable recs) ((packVariable recs).length / 256) = recs := by
  have hlens : ∀ r ∈ recs, r.length ≤ 255 := fun r hr => by
    have := (h r hr).2.1; omega
  have hbody := groupVarGo_bodyLen recs [] hlens (by simp [groupBody])
  simp only [groupBody_nil, List.length_nil, Nat.cast_zero, sub_zero] at hbody
  have hbody2 : ∀ g ∈ groupVar recs, (groupBody g).length ≤ 256 := by
    intro g hgmem
    exact hbody g hgmem
  have hgroups : ∀ g ∈ groupVar recs,
      (∀ r ∈ g, WfRecord r) ∧ (groupBody g).length ≤ 256 := by
    intro g hgmem
    exact ⟨fun r hr => h r (groupVar_mem hgmem hr), hbody2 g hgmem⟩
  have hpack := packVariable_eq_groups recs hlens
  have hlen : (packVariable recs).length = 256 * (groupVar recs).length := by
    rw [hpack]
    have h1 := flatten_length_const ((groupVar recs).map encodeSector) (by
      intro x hx
      rcases List.mem_map.1 hx with ⟨g, hgmem, hgx⟩
      rw [← hgx]
      exact encodeSector_length g (hbody2 g hgmem))
    rw [h1, List.length_map]
  have hsectors : (packVariable recs).length / 256 = (groupVar recs).length := by
    rw [hlen]
    exact Nat.mul_div_cancel_left _ (by norm_num)
  rw [hsectors, hpack, unpackVariable_encoded _ hgroups, groupVar_join]

/-- Witness for C7 at a concrete two-record file. -/
theorem c7_variable_pack_unpack_roundtrip_witness :
    unpackVariable (packVariable [[65], [66, 67]])
      ((packVariable [[65], [66, 67]]).length / 256) = [[65], [66, 67]] :=
  c7_variable_pack_unpack_roundtrip [[65], [66, 67]] (by decide)

/-- C6 counterexample: for the VARIABLE file with two 127-byte records the
packed content is exactly the two length-prefixed records back to back -
one full 256-byte sector with record data up to its very last byte and no
0xFF terminator anywhere - so the final sector is not closed with 0xFF
plus padding as the claim states. -/
theorem c6_counterexample_no_terminator_when_sector_full :
    packVariable twoHalfSectorRecords
      = 127 :: twoHalfSectorRecords.getD 0 []
          ++ 127 :: twoHalfSectorRecords.getD 1 [] ∧
    (packVariable twoHalfSectorRecords).length = 256 ∧
    255 ∉ packVariable twoHalfSectorRecords := by decide

/-- C6 (amended): after the last record of a DATA/VARIABLE file the packer
closes the final sector with a 0xFF terminator byte and zero padding to the
256-byte boundary whenever any space is left in that sector; when the last
record exactly fills the sector, nothing is appended and the output already
ends on the boundary. In both cases the packed output is a positive
multiple of 256 bytes. -/
theorem c6_variable_packer_closes_final_sector (recs : List (List Nat))
    (h : ∀ r ∈ recs, r.length ≤ 255) :
    (packVariable recs).length % 256 = 0 ∧
    0 < (packVariable recs).length ∧
    (0 < (packVarBody recs).2 →
      packVariable recs = (packVarBody recs).1 ++
        255 :: List.replicate ((packVarBody recs).2 - 1).toNat 0) ∧
    ((packVarBody recs).2 = 0 →
      packVariable recs = (packVarBody recs).1 ∧
        (packVarBody recs).1.length % 256 = 0) := by
  obtain ⟨h0, h256, hmod, hpos⟩ := packVarBody_inv recs h
  have hclose : packVariable recs =
      if 0 < (packVarBody recs).2 then
        (packVarBody recs).1 ++ 255 :: List.replicate ((packVarBody recs).2 - 1).toNat 0
      else (packVarBody recs).1 := rfl
  by_cases hl : 0 < (packVarBody recs).2
  · rw [hclose, if_pos hl]
    refine ⟨?_, ?_, fun _ => rfl, fun hz => absurd hz (by omega)⟩ <;>
      · simp only [List.length_append, List.length_cons, List.length_replicate]
        omega
  · have hz : (packVarBody recs).2 = 0 := by omega
    rw [hclose, if_neg hl]
    exact ⟨by omega, by omega, fun hc => absurd hc hl, fun _ => ⟨rfl, by omega⟩⟩

/-- Witness for C6 at a concrete file: one 10-byte record, packed into one
sector closed with 0xFF and zero padding. -/
theorem c6_variable_packer_closes_final_sector_witness :
    (packVariable [List.replicate 10 65]).length % 256 = 0 ∧
    0 < (packVariable [List.replicate 10 65]).length ∧
    (0 < (packVarBody [List.replicate 10 65]).2 →
      packVariable [List.replicate 10 65] = (packVarBody [List.replicate 10 65]).1 ++
        255 :: List.replicate ((packVarBody [List.replicate 10 65]).2 - 1).toNat 0) ∧
    ((packVarBody [List.replicate 10 65]).2 = 0 →
      packVariable [List.replicate 10 65] = (packVarBody [List.replicate 10 65]).1 ∧
        (packVarBody [List.replicate 10 65]).1.length % 256 = 0) :=
  c6_variable_packer_closes_final_sector [List.replicate 10 65] (by decide)

/-- C5: for every geometry the storage allocation-unit size is the step
function 1 / 2 / 4 / 8 of total sectors with thresholds 1600, 3200, 6400,
and the data-chain-pointer allocation-unit size is 1 below 4096 total
sectors and the storage allocation-unit size from 4096 on. -/
theorem c5_allocation_unit_sizes (g : PhysicalProperties) :
    (g.totalSectors < 1600 → getSectorsPerAllocationUnit g = 1) ∧
    (1600 ≤ g.totalSectors → g.totalSectors < 3200 → getSectorsPerAllocationUnit g = 2) ∧
    (3200 ≤ g.totalSectors → g.totalSectors < 6400 → getSectorsPerAllocationUnit g = 4) ∧
    (6400 ≤ g.totalSectors → getSectorsPerAllocationUnit g = 8) ∧
    (g.totalSectors < 4096 → getSectorsPerAllocationUnitForDataChainPointers g = 1) ∧
    (4096 ≤ g.totalSectors →
      getSectorsPerAllocationUnitForDataChainPointers g = getSectorsPerAllocationUnit g) := by
  unfold getSectorsPerAllocationUnit getSectorsPerAllocationUnitForDataChainPointers
  refine ⟨?_, ?_, ?_, ?_, ?_, ?_⟩ <;> intros <;> repeat first | rfl | (split; try omega)

/-- Witness for C5 at concrete geometries in each step of the step function. -/
theorem c5_allocation_unit_sizes_witness :
    getSectorsPerAllocationUnit ⟨1440, 18, 2, 2, 2⟩ = 1 ∧
    getSectorsPerAllocationUnit ⟨1600, 18, 2, 2, 2⟩ = 2 ∧
    getSectorsPerAllocationUnit ⟨3200, 18, 2, 2, 2⟩ = 4 ∧
    getSectorsPerAllocationUnit ⟨6400, 18, 2, 2, 2⟩ = 8 ∧
    getSectorsPerAllocationUnitForDataChainPointers ⟨3200, 18, 2, 2, 2⟩ = 1 ∧
    getSectorsPerAllocationUnitForDataChainPointers ⟨4096, 18, 2, 2, 2⟩
      = getSectorsPerAllocationUnit ⟨4096, 18, 2, 2, 2⟩ :=
  ⟨(c5_allocation_unit_sizes ⟨1440, 18, 2, 2, 2⟩).1 (by decide),
   (c5_allocation_unit_sizes ⟨1600, 18, 2, 2, 2⟩).2.1 (by decide) (by decide),
   (c5_allocation_unit_sizes ⟨3200, 18, 2, 2, 2⟩).2.2.1 (by decide) (by decide),
   (c5_allocation_unit_sizes ⟨6400, 18, 2, 2, 2⟩).2.2.2.1 (by decide),
   (c5_allocation_unit_sizes ⟨3200, 18, 2, 2, 2⟩).2.2.2.2.1 (by decide),
   (c5_allocation_unit_sizes ⟨4096, 18, 2, 2, 2⟩).2.2.2.2.2 (by decide)⟩

theorem createBinaryImage_cache_irrel (s : DiskImageState) (c : Option (List Nat)) :
    createBinaryImage { s with binaryImage := c } = createBinaryImage s := rfl

theorem getBinaryImage_cacheInv (s : DiskImageState) (h : CacheInv s) :
    CacheInv (getBinaryImage s).2 := by
  unfold getBinaryImage
  cases hbi : s.binaryImage with
  | some b => exact h
  | none =>
    intro b hb
    have hb2 : createBinaryImage s = b := Option.some.inj hb
    show b = createBinaryImage { s with binaryImage := some (createBinaryImage s) }
    rw [createBinaryImage_cache_irrel]
    exact hb2.symm

/-- C10: for every state and sector number, readSector returns a buffer of
exactly 256 bytes, and every position that falls at or past the end of the
underlying binary image reads back as a zero byte. -/
theorem c10_readSector_always_256_zero_padded (s : DiskImageState) (n : Nat) :
    (readSector n s).1.length = 256 ∧
    (∀ i, i < 256 → (getBinaryImage s).1.length ≤ 256 * n + i →
      (readSector n s).1.getD i 1 = 0) := by
  constructor
  · simp [readSector]
  · intro i hi hlen
    have hz : getB (getBinaryImage s).1 (256 * n + i) = 0 := by
      unfold getB
      rw [List.getD_eq_getElem?_getD, List.getElem?_eq_none (by omega), Option.getD_none]
    unfold readSector
    simp [List.getD_eq_getElem?_getD, List.getElem?_map, List.getElem?_range, hi, hz]

/-- Witness for C10: a state whose cached image has only 3 bytes still
yields a full zero sector at sector 1. -/
theorem c10_readSector_always_256_zero_padded_witness :
    (readSector 1 (DiskImageState.mk [] [] ⟨1440, 18, 2, 2, 2⟩ (some [9, 9, 9]))).1.length
      = 256 ∧
    (readSector 1 (DiskImageState.mk [] [] ⟨1440, 18, 2, 2, 2⟩ (some [9, 9, 9]))).1.getD 0 1
      = 0 :=
  ⟨(c10_readSector_always_256_zero_padded _ 1).1,
   (c10_readSector_always_256_zero_padded
     (DiskImageState.mk [] [] ⟨1440, 18, 2, 2, 2⟩ (some [9, 9, 9])) 1).2 0
     (by decide) (by decide)⟩

/-- C2 (amended): putFile and deleteFile set the cache absent and emit
their single notification (so the cache is absent before any observer
runs); getBinaryImage, readSector, putFile and deleteFile preserve the
invariant that a present cache equals createBinaryImage's current output;
but loadBinaryImage ends with the cache holding its input buffer verbatim
(not necessarily createBinaryImage's output), and restoreState leaves the
cache untouched while replacing the catalog, so the byte-for-byte
invariant does not survive restoreState. -/
theorem c2_cache_discipline :
    (∀ s f, ((putFile f s).1.binaryImage = none) ∧
      (putFile f s).2 = [DiskImageEvent.fileAdded f.name]) ∧
    (∀ s nm, ((deleteFile nm s).1.binaryImage = none) ∧
      (deleteFile nm s).2 = [DiskImageEvent.fileDeleted nm]) ∧
    (∀ s, CacheInv s → CacheInv (getBinaryImage s).2) ∧
    (∀ s n, CacheInv s → CacheInv (readSector n s).2) ∧
    (∀ s f, CacheInv (putFile f s).1) ∧
    (∀ s nm, CacheInv (deleteFile nm s).1) ∧
    (∀ buf s, (loadBinaryImage buf s).1.binaryImage = some buf) ∧
    (∀ st s, (restoreState st s).binaryImage = s.binaryImage) := by
  refine ⟨fun s f => ⟨rfl, rfl⟩, fun s nm => ⟨rfl, rfl⟩,
    getBinaryImage_cacheInv, ?_, ?_, ?_, fun buf s => rfl, fun st s => rfl⟩
  · intro s n h
    exact getBinaryImage_cacheInv s h
  · intro s f b hb
    exact absurd hb (by simp [putFile])
  · intro s nm b hb
    exact absurd hb (by simp [deleteFile])

/-- Witness for C2 at a concrete state with an absent cache. -/
theorem c2_cache_discipline_witness :
    CacheInv ((getBinaryImage (DiskImageState.mk [] [] ⟨4, 1, 1, 1, 1⟩ none)).2) ∧
    CacheInv ((readSector 0 (DiskImageState.mk [] [] ⟨4, 1, 1, 1, 1⟩ none)).2) :=
  ⟨c2_cache_discipline.2.2.1 _ (fun _ hb => nomatch hb),
   c2_cache_discipline.2.2.2.1 _ 0 (fun _ hb => nomatch hb)⟩

/-- C2 counterexample: both exclusions of the amended claim fail the
byte-for-byte invariant from a state satisfying it. restoreState replaces
name and catalog but neither clears the cache nor recomputes it, leaving a
present cached image that differs from what createBinaryImage now
produces; and loadBinaryImage ends by caching its input buffer verbatim,
which differs from createBinaryImage of the decoded state (here: a 1-byte
buffer, whose decoded geometry has 0 total sectors, so createBinaryImage
returns the empty buffer). -/
theorem c2_counterexample_restoreState_keeps_stale_cache :
    CacheInv cachedDiskA ∧
    (restoreState snapshotB cachedDiskA).binaryImage
      = some (createBinaryImage emptyDiskA) ∧
    createBinaryImage (restoreState snapshotB cachedDiskA)
      ≠ createBinaryImage emptyDiskA ∧
    ¬ CacheInv (restoreState snapshotB cachedDiskA) ∧
    CacheInv emptyDiskA ∧
    (loadBinaryImage [68] emptyDiskA).1.binaryImage = some [68] ∧
    createBinaryImage (loadBinaryImage [68] emptyDiskA).1 ≠ [68] ∧
    ¬ CacheInv (loadBinaryImage [68] emptyDiskA).1 := by
  have h2 : (restoreState snapshotB cachedDiskA).binaryImage
      = some (createBinaryImage emptyDiskA) := rfl
  have h3 : createBinaryImage (restoreState snapshotB cachedDiskA)
      ≠ createBinaryImage emptyDiskA := by decide
  have h6 : (loadBinaryImage [68] emptyDiskA).1.binaryImage = some [68] := rfl
  have h7 : createBinaryImage (loadBinaryImage [68] emptyDiskA).1 ≠ [68] := by decide
  have h5 : CacheInv emptyDiskA := fun b hb => nomatch hb
  refine ⟨?_, h2, h3, fun h => h3 ((h _ h2).symm),
    h5, h6, h7, fun h => h7 ((h _ h6).symm)⟩
  intro b hb
  have hb2 : createBinaryImage emptyDiskA = b := Option.some.inj hb
  show b = createBinaryImage { emptyDiskA with binaryImage := some (createBinaryImage emptyDiskA) }
  rw [createBinaryImage_cache_irrel]
  exact hb2.symm

/-- C1: evaluation of encode-then-decode at the one-file fixture. The
decoded catalog holds file F, but with 64 records of 4 bytes instead of
the original single record: the original record (sampled: byte 2 is 3)
followed by 63 zero-filled records (sampled: record 1 byte 2 is 0). The
decoder (lines 464-471) rebuilds `recordsPerSector` FIXED records from
every sector of every data-chain run and never consults the FDR's level-3
record count (written at line 567), so any FIXED file whose record count
is not a multiple of records-per-sector gains zero-padding records on
round trip, contradicting the claim (and the worked example of the
specification, which predicts the original records exactly). -/
theorem c1_roundtrip_gains_padding_records :
    (loadBinaryImage (createBinaryImage oneFileDisk) freshDisk).1.files.map
        (fun f => (f.name, f.records.map List.length))
      = [([70], List.replicate 64 4)] ∧
    (((loadBinaryImage (createBinaryImage oneFileDisk) freshDisk).1.files.getD 0
        ⟨[], 0, 0, 0, 0, [], []⟩).records.getD 0 []).getD 2 99 = 3 ∧
    (((loadBinaryImage (createBinaryImage oneFileDisk) freshDisk).1.files.getD 0
        ⟨[], 0, 0, 0, 0, [], []⟩).records.getD 1 []).getD 2 99 = 0 ∧
    oneFileDisk.files.map (fun f => (f.name, f.records.map List.length))
      = [([70], [4])] := by
  decide

theorem finishLoadTIFile_too_short (fileBuffer : List Nat) (s : DiskImageState)
    (tiFileName : List Nat) (ft rt rl dt rps sec : Nat) (fl : Int) (so : Nat) (pf : Bool)
    (h : (fileBuffer.length : Int) < so + fl) :
    finishLoadTIFile fileBuffer s tiFileName ft rt rl dt rps sec fl so pf
      = (none, s, []) := by
  unfold finishLoadTIFile
  rw [if_neg (by omega)]

theorem finishLoadTIFile_none_imp (fileBuffer : List Nat) (s : DiskImageState)
    (tiFileName : List Nat) (ft rt rl dt rps sec : Nat) (fl : Int) (so : Nat) (pf : Bool) :
    (finishLoadTIFile fileBuffer s tiFileName ft rt rl dt rps sec fl so pf).1 = none →
    finishLoadTIFile fileBuffer s tiFileName ft rt rl dt rps sec fl so pf
      = (none, s, []) := by
  unfold finishLoadTIFile
  by_cases hc : (so : Int) + fl ≤ (fileBuffer.length : Int)
  · rw [if_pos hc]
    intro h
    exact absurd h (by simp)
  · rw [if_neg hc]
    intro _
    rfl

/-- C8: single-file import rejects short input with an absent result and an
unchanged catalog: a buffer of at most 128 bytes is always rejected; a
TIFILES or V9T9 buffer shorter than 128 bytes plus its declared content
length is rejected; and whenever the result is absent, the returned state
is the input state (no catalog entry was created, no event fired). -/
theorem c8_loadTIFile_rejects_short_input
    (fileName fileBuffer : List Nat) (ign : Bool) (s : DiskImageState) :
    (fileBuffer.length ≤ 0x80 →
      loadTIFile fileName fileBuffer ign s = (none, s, [])) ∧
    ((loadTIFile fileName fileBuffer ign s).1 = none →
      loadTIFile fileName fileBuffer ign s = (none, s, [])) ∧
    (tifilesSignature fileBuffer = true →
      (fileBuffer.length : Int) < 0x80 + tifilesDeclaredLength fileBuffer →
      loadTIFile fileName fileBuffer ign s = (none, s, [])) ∧
    (tifilesSignature fileBuffer = false →
      v9t9Signature fileName fileBuffer = true →
      (fileBuffer.length : Int) < 0x80 + v9t9DeclaredLength fileBuffer →
      loadTIFile fileName fileBuffer ign s = (none, s, [])) := by
  refine ⟨?_, ?_, ?_, ?_⟩
  · intro h
    unfold loadTIFile
    rw [if_pos h]
  · unfold loadTIFile
    by_cases h0 : fileBuffer.length ≤ 0x80
    · rw [if_pos h0]
      intro _
      rfl
    · rw [if_neg h0]
      by_cases h1 : tifilesSignature fileBuffer
      · rw [if_pos h1]
        exact finishLoadTIFile_none_imp _ _ _ _ _ _ _ _ _ _ _ _
      · rw [if_neg h1]
        by_cases h2 : v9t9Signature fileName fileBuffer
        · rw [if_pos h2]
          exact finishLoadTIFile_none_imp _ _ _ _ _ _ _ _ _ _ _ _
        · rw [if_neg h2]
          exact finishLoadTIFile_none_imp _ _ _ _ _ _ _ _ _ _ _ _
  · intro h1 hshort
    unfold loadTIFile
    by_cases h0 : fileBuffer.length ≤ 0x80
    · rw [if_pos h0]
    · rw [if_neg h0, if_pos h1]
      exact finishLoadTIFile_too_short _ _ _ _ _ _ _ _ _ _ _ _ (by omega)
  · intro h1 h2 hshort
    unfold loadTIFile
    by_cases h0 : fileBuffer.length ≤ 0x80
    · rw [if_pos h0]
    · rw [if_neg h0, if_neg (by simp [h1]), if_pos h2]
      exact finishLoadTIFile_too_short _ _ _ _ _ _ _ _ _ _ _ _ (by omega)

/-- Witness for C8: a 100-byte buffer, a short TIFILES buffer and a short
V9T9 buffer are all rejected with the catalog untouched. -/
theorem c8_loadTIFile_rejects_short_input_witness :
    loadTIFile [65] (List.replicate 100 0) false freshDisk = (none, freshDisk, []) ∧
    loadTIFile [65] shortTifilesBuffer false freshDisk = (none, freshDisk, []) ∧
    loadTIFile [65, 66, 67, 68, 69, 70, 71, 72] shortV9t9Buffer false freshDisk
      = (none, freshDisk, []) :=
  ⟨(c8_loadTIFile_rejects_short_input [65] (List.replicate 100 0) false freshDisk).1
     (by decide),
   (c8_loadTIFile_rejects_short_input [65] shortTifilesBuffer false freshDisk).2.2.1
     (by decide) (by decide),
   (c8_loadTIFile_rejects_short_input [65, 66, 67, 68, 69, 70, 71, 72] shortV9t9Buffer
     false freshDisk).2.2.2 (by decide) (by decide) (by decide)⟩

/-- C9: evaluation of the fallback import path at an 11-character supplied
name. The fallback name loop (lines 165-170) tests `fileName.length < 10`
— the SUPPLIED name's length, constant across the loop — instead of the
length of the name being built (the TIFILES branch, lines 128-132, tests
`tiFileName.length < 10`). With a supplied name of 10 or more characters
the condition is false at every character, so the created entry's name is
empty instead of the claimed filter-then-truncate result ABCDEFGHIJ. -/
theorem c9_fallback_name_dropped_for_long_names :
    ((loadTIFile elevenCharName fallbackBuffer false freshDisk).1).map DiskFile.name
      = some [] ∧
    (elevenCharName.filter (fun c => isFsChar c)).take 10
      = [65, 66, 67, 68, 69, 70, 71, 72, 73, 74] := by
  decide

